import Mathlib

/-!
Verification of the graphqlite-ts binding library.

The development shallowly embeds the TypeScript sources (`src/utils.ts`,
`src/graph.ts`, `src/types.ts`) in Lean.  JavaScript runtime values flowing
through the binding are modelled by `JsValue`; JavaScript objects are
insertion-ordered association lists; thrown JavaScript exceptions are modelled
with `Except` over `JsError`.  External effects (the native `cypher()` entry
point, `JSON.parse`) are modelled by passing their outcome as an explicit
argument.  JavaScript numbers are modelled as integers: every numeric value
exercised by this code base (counts, distances, years) is integral, and no
claim under verification depends on non-integral arithmetic.
-/

namespace GraphQLite

/-- The single-quote character, written via its code point so that query text
containing quotes can be assembled without quote literals. -/
def sqChar : Char := Char.ofNat 39

/-- The backslash character. -/
def bsChar : Char := Char.ofNat 92

/-- A single-quote as a one-character string. -/
def SQ : String := String.singleton sqChar

/-- A backslash as a one-character string. -/
def BS : String := String.singleton bsChar

/-- A JavaScript value as produced by `JSON.parse` and handled by the binding
(`CypherValue` in `src/types.ts`): null, boolean, number, string, array or
object.  Objects are insertion-ordered association lists, mirroring the
enumeration order that `Object.keys` / `Object.entries` observe. -/
inductive JsValue where
  | null
  | bool (b : Bool)
  | num (n : Int)
  | str (s : String)
  | arr (elems : List JsValue)
  | obj (fields : List (String × JsValue))

/-- A decoded row object (`CypherRow` in `src/types.ts`): a column-name to
value mapping with JavaScript object semantics. -/
abbrev Row := List (String × JsValue)

/-- Property read `o[k]` on an object: the first binding of the key, `none`
standing for the JavaScript `undefined`. -/
def objGet : Row → String → Option JsValue
  | [], _ => none
  | (k₂, v) :: rest, k => if k₂ = k then some v else objGet rest k

/-- Membership test `k in o`. -/
def objHas (fields : Row) (k : String) : Bool :=
  (objGet fields k).isSome

/-- Property write `o[k] = v`: updating an existing key keeps its position,
a fresh key is appended — exactly the JavaScript insertion-order rule. -/
def objSet : Row → String → JsValue → Row
  | [], k, v => [(k, v)]
  | (k₂, v₂) :: rest, k, v =>
    if k₂ = k then (k, v) :: rest else (k₂, v₂) :: objSet rest k v

/-- The key list of a row object, in insertion order. -/
def rowKeys (row : Row) : List String := row.map Prod.fst

mutual

/-- JavaScript `String(v)` / `ToString` coercion: `null`/booleans/numbers print
their literals, arrays join their elements with commas (`null` printing as the
empty string inside a join), plain objects print `[object Object]`. -/
def jsToString : JsValue → String
  | .null => "null"
  | .bool b => cond b "true" "false"
  | .num n => toString n
  | .str s => s
  | .arr elems => String.intercalate "," (jsElemStrings elems)
  | .obj _ => "[object Object]"

/-- Element strings of `Array.prototype.join`: `null` elements become empty. -/
def jsElemStrings : List JsValue → List String
  | [] => []
  | .null :: rest => "" :: jsElemStrings rest
  | v :: rest => jsToString v :: jsElemStrings rest

end

/-- JavaScript truthiness of a value. -/
def jsTruthy : JsValue → Bool
  | .null => false
  | .bool b => b
  | .num n => n != 0
  | .str s => s ≠ ""
  | .arr _ => true
  | .obj _ => true

/-- JavaScript `ToNumber` coercion, `none` standing for `NaN`.  Strings are
trimmed and read as decimal integers (the integer-valued model of JS numbers);
arrays and objects are modelled as `NaN` — no value of those shapes reaches a
numeric comparison in the code under verification. -/
def toNumber : JsValue → Option Int
  | .null => some 0
  | .bool b => some (if b then 1 else 0)
  | .num n => some n
  | .str s => if s.trim = "" then some 0 else s.trim.toInt?
  | .arr _ => none
  | .obj _ => none

/-- The JavaScript comparison `x > 0` applied to a possibly-undefined value
(`undefined` coerces to `NaN`, and `NaN > 0` is false). -/
def jsGtZero : Option JsValue → Bool
  | none => false
  | some v =>
    match toNumber v with
    | some n => decide (0 < n)
    | none => false

/-- Thrown JavaScript exceptions reachable in this code base:
`new Error(...)` / `new GraphQLiteError(...)` built by the binding, runtime
`TypeError`s from property access on `null`, and the `SyntaxError` that
`JSON.parse` raises on malformed input. -/
inductive JsError where
  | error (message : String)
  | typeError (message : String)
  | syntaxError (message : String)
  | graphQLiteError (message : String)

/-- The `message` property of a thrown error. -/
def JsError.message : JsError → String
  | .error m => m
  | .typeError m => m
  | .syntaxError m => m
  | .graphQLiteError m => m

/-- `e instanceof Error`: every exception this code base can catch is an
`Error` instance (`Error`, `GraphQLiteError extends Error`, `TypeError`,
`SyntaxError`). -/
def JsError.instanceofError : JsError → Bool := fun _ => true

/-- Property read `base[key]` with a string key, for an arbitrary base value:
reading off `null` throws a `TypeError`; numbers and booleans have no own
properties; strings and arrays expose `length` and canonically-spelled
indices; objects look the key up.  `ok none` is the JavaScript `undefined`. -/
def memberAccess : JsValue → String → Except JsError (Option JsValue)
  | .null, k =>
    .error (.typeError ("Cannot read properties of null (reading " ++ k ++ ")"))
  | .bool _, _ => .ok none
  | .num _, _ => .ok none
  | .str s, k =>
    if k = "length" then .ok (some (.num s.length))
    else
      match k.toNat? with
      | some i =>
        if toString i = k then .ok ((s.toList.get? i).map fun c => .str (String.singleton c))
        else .ok none
      | none => .ok none
  | .arr elems, k =>
    if k = "length" then .ok (some (.num elems.length))
    else
      match k.toNat? with
      | some i => if toString i = k then .ok (elems.get? i) else .ok none
      | none => .ok none
  | .obj fields, k => .ok (objGet fields k)

/-- Element read `base[i]` with a numeric index (the `rowData[index]` access of
`resultToRows`). -/
def memberAccessIdx : JsValue → Nat → Except JsError (Option JsValue)
  | .null, _ => .error (.typeError "Cannot read properties of null (indexing)")
  | .bool _, _ => .ok none
  | .num _, _ => .ok none
  | .str s, i => .ok ((s.toList.get? i).map fun c => .str (String.singleton c))
  | .arr elems, i => .ok (elems.get? i)
  | .obj fields, i => .ok (objGet fields (toString i))

/-- `text` starts with `pattern`, character-wise. -/
def charsStartWith : List Char → List Char → Bool
  | _, [] => true
  | [], _ :: _ => false
  | c :: cs, d :: ds => (c = d) && charsStartWith cs ds

/-- `text` contains `pattern` as a contiguous run. -/
def charsContain : List Char → List Char → Bool
  | [], pat => pat.isEmpty
  | c :: rest, pat => charsStartWith (c :: rest) pat || charsContain rest pat

/-- JavaScript `s.includes(sub)`. -/
def strIncludes (s sub : String) : Bool :=
  charsContain s.toList sub.toList

/-- JavaScript `s.startsWith(p)`. -/
def strStartsWith (s p : String) : Bool :=
  charsStartWith s.toList p.toList

/-- The runtime value returned by `parseCypherResult` (`CypherResult` in
`src/types.ts` declares `columns: string[]` and `data: CypherValue[][]`, but
the decoder's `parsed as CypherResult` cast at `src/utils.ts:32` is unchecked,
so the members are carried here as raw decoded values). -/
structure CypherResult where
  columns : JsValue
  data : JsValue

/-- The empty table `{columns: [], data: []}`. -/
def emptyResult : CypherResult := ⟨.arr [], .arr []⟩

/-- `Object.keys(v)` for a non-null value of type `object`: field names of a
plain object (unique in `JSON.parse` output), index strings for an array. -/
def jsOwnKeys : JsValue → List String
  | .obj fields => fields.map Prod.fst
  | .arr elems => (List.range elems.length).map toString
  | _ => []

/-- One output row of the array-format branch of `parseCypherResult`
(`src/utils.ts:41-43`): `columns.map(col => row[col] ?? null)`.  Property
access on a `null` row throws. -/
def buildArrRow (row : JsValue) : List String → Except JsError (List JsValue)
  | [] => .ok []
  | c :: cs =>
    match memberAccess row c with
    | .error e => .error e
    | .ok v =>
      match buildArrRow row cs with
      | .error e => .error e
      | .ok vs => .ok ((v.getD .null) :: vs)

/-- The `parsed.map(...)` of the array-format branch (`src/utils.ts:41`). -/
def buildArrData (rows : List JsValue) (columns : List String) :
    Except JsError (List (List JsValue)) :=
  match rows with
  | [] => .ok []
  | r :: rs =>
    match buildArrRow r columns with
    | .error e => .error e
    | .ok row =>
      match buildArrData rs columns with
      | .error e => .error e
      | .ok rest => .ok (row :: rest)

/-- `typeof v === 'object' && v !== null` (arrays included). -/
def jsIsObjectNonNull : JsValue → Bool
  | .obj _ => true
  | .arr _ => true
  | _ => false

/-- Body of the `try` block of `parseCypherResult` after `JSON.parse`
succeeded (`src/utils.ts:25-54`): an error-marker string throws; an object
with `columns` and `data` members is returned unchanged; a non-empty array
derives columns from the first element's keys and rebuilds each row by
column lookup with null for absent members; everything else decodes to the
empty table. -/
def decodeParsed (parsed : JsValue) : Except JsError CypherResult :=
  match parsed with
  | .str s =>
    if strStartsWith s "Error" then .error (.error s)
    else .ok emptyResult
  | .obj fields =>
    if objHas fields "columns" && objHas fields "data" then
      .ok ⟨(objGet fields "columns").getD .null, (objGet fields "data").getD .null⟩
    else .ok emptyResult
  | .arr elems =>
    match elems with
    | [] => .ok emptyResult
    | firstRow :: _ =>
      if jsIsObjectNonNull firstRow then
        match buildArrData elems (jsOwnKeys firstRow) with
        | .error e => .error e
        | .ok data =>
          .ok ⟨.arr ((jsOwnKeys firstRow).map .str), .arr (data.map .arr)⟩
      else .ok emptyResult
  | _ => .ok emptyResult

/-- `parseCypherResult` (`src/utils.ts:10-66`).  `jsonStr` is the raw native
response; `jsonParse` is the outcome of the external `JSON.parse(jsonStr)`
call, its `error` carrying the runtime's `SyntaxError` message.  The
`typeof jsonStr === 'string'` guards of the source are identically true here
and are dropped. -/
def parseCypherResult (jsonStr : String) (jsonParse : Except String JsValue) :
    Except JsError CypherResult :=
  if strStartsWith jsonStr "Error" then .error (.error jsonStr)
  else if strIncludes jsonStr "Query executed successfully" then .ok emptyResult
  else
    match
      (match jsonParse with
       | .error msg => .error (.syntaxError msg)
       | .ok parsed => decodeParsed parsed : Except JsError CypherResult)
    with
    | .ok r => .ok r
    | .error e =>
      if strIncludes jsonStr "successfully" then .ok emptyResult
      else if e.instanceofError then .error e
      else .error (.error ("Failed to parse Cypher result: " ++ jsonStr))

/-- The `columns.forEach((column, index) => row[column] = rowData[index] ?? null)`
loop of `resultToRows` (`src/utils.ts:74-76`), threading the row object being
built.  The column value is coerced to a property key by `String(...)`. -/
def buildRowGo (rowData : JsValue) : List JsValue → Nat → Row → Except JsError Row
  | [], _, row => .ok row
  | c :: rest, idx, row =>
    match memberAccessIdx rowData idx with
    | .error e => .error e
    | .ok v => buildRowGo rowData rest (idx + 1) (objSet row (jsToString c) (v.getD .null))

/-- One row conversion of `resultToRows`: `result.columns.forEach` requires the
columns member to be an array, else the runtime throws. -/
def buildRow (columns : JsValue) (rowData : JsValue) : Except JsError Row :=
  match columns with
  | .arr cols => buildRowGo rowData cols 0 []
  | _ => .error (.typeError "result.columns.forEach is not a function")

/-- The `result.data.map(...)` loop of `resultToRows`, left to right, a thrown
exception aborting the remainder. -/
def mapRows (columns : JsValue) : List JsValue → Except JsError (List Row)
  | [] => .ok []
  | d :: ds =>
    match buildRow columns d with
    | .error e => .error e
    | .ok row =>
      match mapRows columns ds with
      | .error e => .error e
      | .ok rows => .ok (row :: rows)

/-- `resultToRows` (`src/utils.ts:71-79`): converts a decoded table to row
objects; `result.data.map` requires the data member to be an array. -/
def resultToRows (result : CypherResult) : Except JsError (List Row) :=
  match result.data with
  | .arr rows => mapRows result.columns rows
  | _ => .error (.typeError "result.data.map is not a function")

/-- `value.replace(/'/g, "\\'")` — the escaping applied to identifiers and
string property values throughout `upsertNode` / `upsertEdge`: every single
quote becomes backslash-quote, every other character is kept. -/
def escapeSingleQuotes (s : String) : String :=
  String.mk ((s.toList.map fun c => if c = sqChar then [bsChar, sqChar] else [c]).flatten)

/-- The property-value formatting shared by the four upsert branches
(`src/graph.ts:285-294, 299-309, 352-361, 369-379`): `null` prints the null
token, strings are single-quoted with quote escaping, booleans print
`value.toString().toLowerCase()`, and everything else interpolates as
`String(value)`. -/
def formatValue : JsValue → String
  | .null => "null"
  | .str s => SQ ++ escapeSingleQuotes s ++ SQ
  | .bool b => cond b "true" "false"
  | v => jsToString v

/-- JavaScript `Array.prototype.join(', ')` on a list of strings. -/
def joinComma : List String → String
  | [] => ""
  | [x] => x
  | x :: y :: rest => x ++ ", " ++ joinComma (y :: rest)

/-- The `key: value` list of a creation query, joined with `, `
(`src/graph.ts:299-309`). -/
def propPairs (entries : Row) : String :=
  joinComma (entries.map fun kv => kv.1 ++ ": " ++ formatValue kv.2)

/-- `label || 'Entity'` (`src/graph.ts:275`): JavaScript `||` falls back on
the empty string as well as on a missing argument. -/
def labelOf : Option String → String
  | some l => if l = "" then "Entity" else l
  | none => "Entity"

/-- `relType || 'RELATED'` (`src/graph.ts:339`). -/
def relationshipTypeOf : Option String → String
  | some t => if t = "" then "RELATED" else t
  | none => "RELATED"

/-- The existence decision of both upserts
(`src/graph.ts:280, 347`): `checkResult.length > 0 && (checkResult[0]?.cnt as number) > 0`. -/
def checkExists (checkResult : List Row) : Bool :=
  decide (0 < checkResult.length) &&
    jsGtZero (checkResult.head?.bind fun row => objGet row "cnt")

/-- The node existence check query (`src/graph.ts:279`). -/
def nodeCheckQuery (nodeId : String) : String :=
  "MATCH (n \x7bid: " ++ SQ ++ escapeSingleQuotes nodeId ++ SQ ++ "\x7d) RETURN count(n) as cnt"

/-- One `SET` statement of the node update branch (`src/graph.ts:295`). -/
def setNodeQuery (nodeId : String) (kv : String × JsValue) : String :=
  "MATCH (n \x7bid: " ++ SQ ++ escapeSingleQuotes nodeId ++ SQ ++ "\x7d) SET n." ++ kv.1
    ++ " = " ++ formatValue kv.2

/-- The node creation query (`src/graph.ts:310`). -/
def createNodeQuery (nodeLabel : String) (allProperties : Row) : String :=
  "CREATE (n:" ++ nodeLabel ++ " \x7b" ++ propPairs allProperties ++ "\x7d)"

/-- `upsertNode` (`src/graph.ts:263-312`) modelled as the list of Cypher query
strings it sends through `this.cypher`, in order: the existence check first,
then — depending on the decoded check result `checkResult` — either one `SET`
statement per caller-supplied property, or a single creation statement over
`{...properties, id: nodeId}` (the spread-then-`id` object literal of line
276, modelled by `objSet`). -/
def upsertNodeQueries (nodeId : String) (properties : Row) (label : Option String)
    (checkResult : List Row) : List String :=
  let allProperties := objSet properties "id" (.str nodeId)
  if checkExists checkResult then
    nodeCheckQuery nodeId :: properties.map (setNodeQuery nodeId)
  else
    [nodeCheckQuery nodeId, createNodeQuery (labelOf label) allProperties]

/-- The edge existence check query (`src/graph.ts:345`): it matches any
relationship between the two endpoints — the pattern `-[r]->` carries no
relationship type. -/
def edgeCheckQuery (sourceId targetId : String) : String :=
  "MATCH (a \x7bid: " ++ SQ ++ escapeSingleQuotes sourceId ++ SQ ++ "\x7d)-[r]->(b \x7bid: "
    ++ SQ ++ escapeSingleQuotes targetId ++ SQ ++ "\x7d) RETURN count(r) as cnt"

/-- One `SET` statement of the edge update branch (`src/graph.ts:363`). -/
def setEdgeQuery (sourceId targetId relationshipType : String)
    (kv : String × JsValue) : String :=
  "MATCH (a \x7bid: " ++ SQ ++ escapeSingleQuotes sourceId ++ SQ ++ "\x7d)-[r:"
    ++ relationshipType ++ "]->(b \x7bid: " ++ SQ ++ escapeSingleQuotes targetId ++ SQ
    ++ "\x7d) SET r." ++ kv.1 ++ " = " ++ formatValue kv.2

/-- The edge creation statement (`src/graph.ts:380-386`): with properties a
braced property list is attached, otherwise the bare pattern is created. -/
def createEdgeQuery (sourceId targetId relationshipType : String)
    (properties : Row) : String :=
  if 0 < properties.length then
    "MATCH (a \x7bid: " ++ SQ ++ escapeSingleQuotes sourceId ++ SQ ++ "\x7d), (b \x7bid: "
      ++ SQ ++ escapeSingleQuotes targetId ++ SQ ++ "\x7d) CREATE (a)-[r:"
      ++ relationshipType ++ " \x7b" ++ propPairs properties ++ "\x7d]->(b)"
  else
    "MATCH (a \x7bid: " ++ SQ ++ escapeSingleQuotes sourceId ++ SQ ++ "\x7d), (b \x7bid: "
      ++ SQ ++ escapeSingleQuotes targetId ++ SQ ++ "\x7d) CREATE (a)-[r:"
      ++ relationshipType ++ "]->(b)"

/-- `upsertEdge` (`src/graph.ts:327-389`) modelled as the list of Cypher query
strings it sends, in order: the (type-free) existence check first, then either
one `SET` statement per property or a single creation statement. -/
def upsertEdgeQueries (sourceId targetId : String) (properties : Row)
    (relType : Option String) (checkResult : List Row) : List String :=
  let relationshipType := relationshipTypeOf relType
  if checkExists checkResult then
    edgeCheckQuery sourceId targetId
      :: properties.map (setEdgeQuery sourceId targetId relationshipType)
  else
    [edgeCheckQuery sourceId targetId,
     createEdgeQuery sourceId targetId relationshipType properties]

/-- How a public `Graph` method begins: it either throws before touching the
database, or reaches the native layer, `stmt` being the first SQL statement it
prepares. -/
inductive OpStart where
  | failed (e : JsError)
  | native (stmt : String)

/-- Whether a method start is a failure raised before any native call. -/
def OpStart.failsBeforeNative : OpStart → Bool
  | .failed _ => true
  | .native _ => false

/-- The `GraphQLiteError` thrown by the extension-loaded guard
(`src/graph.ts:117-119` and its clones). -/
def notLoadedError : JsError :=
  .graphQLiteError "GraphQLite extension not loaded. Provide extensionPath in constructor options."

/-- `cypher` (`src/graph.ts:112-150`): guard on the loaded flag, then prepare
the one- or two-argument native entry point. -/
def cypherStart (extensionLoaded : Bool) (hasParams : Bool) : OpStart :=
  if extensionLoaded = false then .failed notLoadedError
  else .native (cond hasParams "SELECT cypher(?1, ?2) as result" "SELECT cypher(?1) as result")

/-- `cypherRaw` (`src/graph.ts:159-195`): same guard and statements. -/
def cypherRawStart (extensionLoaded : Bool) (hasParams : Bool) : OpStart :=
  if extensionLoaded = false then .failed notLoadedError
  else .native (cond hasParams "SELECT cypher(?1, ?2) as result" "SELECT cypher(?1) as result")

/-- `getStats` (`src/graph.ts:207-225`): no guard — the probe statement is
prepared whatever the flag says. -/
def getStatsStart (_extensionLoaded : Bool) : OpStart :=
  .native "SELECT gql_graph_loaded() as result"

/-- `loadGraph` (`src/graph.ts:230-233`): no guard — the cache-load statement
is prepared and run whatever the flag says. -/
def loadGraphStart (_extensionLoaded : Bool) : OpStart :=
  .native "SELECT gql_load_graph()"

/-- `unloadGraph` (`src/graph.ts:238-241`): no guard. -/
def unloadGraphStart (_extensionLoaded : Bool) : OpStart :=
  .native "SELECT gql_unload_graph()"

/-- `reloadGraph` (`src/graph.ts:246-249`): no guard. -/
def reloadGraphStart (_extensionLoaded : Bool) : OpStart :=
  .native "SELECT gql_reload_graph()"

/-- `upsertNode` (`src/graph.ts:268-272`): guard, then the existence check
goes through `this.cypher` without parameters. -/
def upsertNodeStart (extensionLoaded : Bool) : OpStart :=
  if extensionLoaded = false then .failed notLoadedError
  else .native "SELECT cypher(?1) as result"

/-- `upsertEdge` (`src/graph.ts:333-337`): guard, then the check via
`this.cypher`. -/
def upsertEdgeStart (extensionLoaded : Bool) : OpStart :=
  if extensionLoaded = false then .failed notLoadedError
  else .native "SELECT cypher(?1) as result"

/-- `pagerank` (`src/graph.ts:404-409`): guard, then the algorithm query via
`this.cypher`. -/
def pagerankStart (extensionLoaded : Bool) : OpStart :=
  if extensionLoaded = false then .failed notLoadedError
  else .native "SELECT cypher(?1) as result"

/-- `louvain` (`src/graph.ts:453-458`): guard, then the algorithm query via
`this.cypher`. -/
def louvainStart (extensionLoaded : Bool) : OpStart :=
  if extensionLoaded = false then .failed notLoadedError
  else .native "SELECT cypher(?1) as result"

/-- `shortestPath` (`src/graph.ts:507-516`): guard, then the dijkstra query
via `this.cypher`. -/
def shortestPathStart (extensionLoaded : Bool) : OpStart :=
  if extensionLoaded = false then .failed notLoadedError
  else .native "SELECT cypher(?1) as result"

/-- `dijkstra` (`src/graph.ts:569-575`) delegates to `shortestPath`. -/
def dijkstraStart (extensionLoaded : Bool) : OpStart :=
  shortestPathStart extensionLoaded

/-- The value returned by `shortestPath` when a path is found
(`ShortestPathResult` in `src/types.ts`, members carried raw as the source
casts them). -/
structure PathFound where
  path : JsValue
  distance : Option JsValue

/-- `x === false` on a possibly-undefined value. -/
def jsStrictFalse : Option JsValue → Bool
  | some (.bool false) => true
  | _ => false

/-- `x === 0` on a possibly-undefined value. -/
def jsStrictZero : Option JsValue → Bool
  | some (.num 0) => true
  | _ => false

/-- The result handling of `shortestPath` (`src/graph.ts:532-553`) applied to
the decoded rows of the dijkstra query: the first record's `column_0` must be
present and truthy; a record whose `found` member is strictly `false`, or
whose `path` member is falsy or has length strictly `0`, yields `null`
(`ok none`); otherwise the path and the optional distance are returned. -/
def shortestPathDecode (results : List Row) : Except JsError (Option PathFound) :=
  match results.head?.bind fun row => objGet row "column_0" with
  | none => .ok none
  | some pd =>
    if jsTruthy pd then
      match memberAccess pd "found" with
      | .error e => .error e
      | .ok found =>
        if jsStrictFalse found then .ok none
        else
          match memberAccess pd "path" with
          | .error e => .error e
          | .ok path =>
            if (path.map jsTruthy).getD false = false then .ok none
            else
              match path with
              | none => .ok none
              | some pv =>
                match memberAccess pv "length" with
                | .error e => .error e
                | .ok len =>
                  if jsStrictZero len then .ok none
                  else
                    match memberAccess pd "distance" with
                    | .error e => .error e
                    | .ok dist => .ok (some ⟨pv, dist⟩)
    else .ok none

/-- The outcome of the native stats probe observed by `getStats`
(`src/graph.ts:207-225`): the prepared statement may itself throw, may yield a
falsy `result?.result`, or yields a raw string together with the outcome of
the external `JSON.parse` on it. -/
inductive StatsProbe where
  | nativeFailure (e : JsError)
  | noResult
  | response (raw : String) (parsed : Except String JsValue)

/-- The stats record returned by `getStats` (`GraphStats` in `src/types.ts`;
members carried raw — `?? 0` only replaces null/undefined, so a non-numeric
reported member passes through). -/
structure GraphStats where
  nodes : JsValue
  edges : JsValue

/-- `x ?? d`: nullish coalescing. -/
def nullishOr (v : Option JsValue) (d : JsValue) : JsValue :=
  match v with
  | none => d
  | some .null => d
  | some x => x

/-- The body of `getStats` on a successfully parsed response
(`src/graph.ts:214-219`): if `parsed.loaded` is truthy, report
`parsed.nodes ?? 0` and `parsed.edges ?? 0`, else fall through to zeros.
Property access on a `null` parse result throws (and is then swallowed by
the surrounding `catch`). -/
def getStatsBody (parsed : JsValue) : Except JsError GraphStats :=
  match memberAccess parsed "loaded" with
  | .error e => .error e
  | .ok loaded =>
    if (loaded.map jsTruthy).getD false then
      match memberAccess parsed "nodes" with
      | .error e => .error e
      | .ok nodes =>
        match memberAccess parsed "edges" with
        | .error e => .error e
        | .ok edges => .ok ⟨nullishOr nodes (.num 0), nullishOr edges (.num 0)⟩
    else .ok ⟨.num 0, .num 0⟩

/-- `getStats` (`src/graph.ts:207-225`): every failure — native, parse, or
property access — and every non-loaded response collapses to
`{nodes: 0, edges: 0}`; the method never raises. -/
def getStats (probe : StatsProbe) : GraphStats :=
  match probe with
  | .nativeFailure _ => ⟨.num 0, .num 0⟩
  | .noResult => ⟨.num 0, .num 0⟩
  | .response _ parsed =>
    match parsed with
    | .error _ => ⟨.num 0, .num 0⟩
    | .ok v =>
      match getStatsBody v with
      | .error _ => ⟨.num 0, .num 0⟩
      | .ok s => s

/-! ## Lemmas about JavaScript object semantics -/

theorem objGet_objSet_same (row : Row) (k : String) (v : JsValue) :
    objGet (objSet row k v) k = some v := by
  induction row with
  | nil => simp [objSet, objGet]
  | cons hd tl ih =>
    obtain ⟨k₂, v₂⟩ := hd
    by_cases h : k₂ = k
    · simp [objSet, h, objGet]
    · simp [objSet, h, objGet, ih]

theorem objGet_objSet_of_ne (row : Row) (k q : String) (v : JsValue) (h : q ≠ k) :
    objGet (objSet row k v) q = objGet row q := by
  have hkq : ¬(k = q) := fun hk => h hk.symm
  induction row with
  | nil => simp [objSet, objGet, hkq]
  | cons hd tl ih =>
    obtain ⟨k₂, v₂⟩ := hd
    by_cases hk : k₂ = k
    · subst hk
      simp [objSet, objGet, hkq]
    · simp [objSet, hk, objGet, ih]

theorem rowKeys_objSet (row : Row) (k : String) (v : JsValue) :
    rowKeys (objSet row k v) =
      if k ∈ rowKeys row then rowKeys row else rowKeys row ++ [k] := by
  induction row with
  | nil => simp [objSet, rowKeys]
  | cons hd tl ih =>
    obtain ⟨k₂, v₂⟩ := hd
    simp only [rowKeys, List.map_cons, List.mem_cons] at ih ⊢
    by_cases hk : k₂ = k
    · subst hk
      simp [objSet]
    · simp only [objSet, if_neg hk, List.map_cons]
      by_cases hm : k ∈ List.map Prod.fst tl
      · rw [if_pos (Or.inr hm), ih, if_pos hm]
      · have h1 : ¬(k = k₂ ∨ k ∈ List.map Prod.fst tl) := by
          rintro (h₂ | h₂)
          · exact hk h₂.symm
          · exact hm h₂
        rw [if_neg h1, ih, if_neg hm, List.cons_append]

theorem mem_rowKeys_objSet (row : Row) (k q : String) (v : JsValue) :
    q ∈ rowKeys (objSet row k v) ↔ q ∈ rowKeys row ∨ q = k := by
  rw [rowKeys_objSet]
  by_cases h : k ∈ rowKeys row
  · rw [if_pos h]
    constructor
    · exact fun hq => Or.inl hq
    · rintro (hq | rfl)
      · exact hq
      · exact h
  · rw [if_neg h]
    simp

theorem nodup_rowKeys_objSet (row : Row) (k : String) (v : JsValue)
    (h : (rowKeys row).Nodup) : (rowKeys (objSet row k v)).Nodup := by
  rw [rowKeys_objSet]
  by_cases hm : k ∈ rowKeys row
  · simpa [hm] using h
  · rw [if_neg hm, List.nodup_append]
    refine ⟨h, List.nodup_singleton k, fun a ha hak => ?_⟩
    rw [List.mem_singleton] at hak
    subst hak
    exact hm ha

theorem objGet_isSome_iff (row : Row) (k : String) :
    (objGet row k).isSome = true ↔ k ∈ rowKeys row := by
  induction row with
  | nil => simp [objGet, rowKeys]
  | cons hd tl ih =>
    obtain ⟨k₂, v₂⟩ := hd
    simp only [rowKeys, List.map_cons, List.mem_cons]
    by_cases h : k₂ = k
    · subst h
      simp [objGet]
    · have hne : ¬(k = k₂) := fun hkk => h hkk.symm
      simp only [objGet, if_neg h]
      constructor
      · intro hm
        exact Or.inr (ih.mp hm)
      · intro hm
        exact ih.mpr (hm.resolve_left hne)

/-! ## Lemmas about row building (`resultToRows`) -/

theorem buildRowGo_mem_rowKeys (d : JsValue) (cols : List JsValue) :
    ∀ (idx : Nat) (row row₂ : Row), buildRowGo d cols idx row = .ok row₂ →
      ∀ q, q ∈ rowKeys row₂ ↔ q ∈ rowKeys row ∨ q ∈ cols.map jsToString := by
  induction cols with
  | nil =>
    intro idx row row₂ h q
    simp only [buildRowGo] at h
    cases h
    simp
  | cons c rest ih =>
    intro idx row row₂ h q
    simp only [buildRowGo] at h
    cases hma : memberAccessIdx d idx with
    | error e => rw [hma] at h; cases h
    | ok v =>
      rw [hma] at h
      rw [ih (idx + 1) _ row₂ h q, mem_rowKeys_objSet]
      simp only [List.map_cons, List.mem_cons]
      tauto

theorem buildRowGo_nodup (d : JsValue) (cols : List JsValue) :
    ∀ (idx : Nat) (row row₂ : Row), (rowKeys row).Nodup →
      buildRowGo d cols idx row = .ok row₂ → (rowKeys row₂).Nodup := by
  induction cols with
  | nil =>
    intro idx row row₂ hnd h
    simp only [buildRowGo] at h
    cases h
    exact hnd
  | cons c rest ih =>
    intro idx row row₂ hnd h
    simp only [buildRowGo] at h
    cases hma : memberAccessIdx d idx with
    | error e => rw [hma] at h; cases h
    | ok v =>
      rw [hma] at h
      exact ih (idx + 1) _ row₂ (nodup_rowKeys_objSet _ _ _ hnd) h

theorem buildRowGo_objGet_of_not_mem (d : JsValue) (cols : List JsValue) :
    ∀ (idx : Nat) (row row₂ : Row) (q : String), q ∉ cols.map jsToString →
      buildRowGo d cols idx row = .ok row₂ → objGet row₂ q = objGet row q := by
  induction cols with
  | nil =>
    intro idx row row₂ q _ h
    simp only [buildRowGo] at h
    cases h
    rfl
  | cons c rest ih =>
    intro idx row row₂ q hq h
    simp only [buildRowGo] at h
    cases hma : memberAccessIdx d idx with
    | error e => rw [hma] at h; cases h
    | ok v =>
      rw [hma] at h
      simp only [List.map_cons, List.mem_cons] at hq
      push_neg at hq
      rw [ih (idx + 1) _ row₂ q hq.2 h]
      exact objGet_objSet_of_ne _ _ _ _ hq.1

theorem getD_eq_get?_getD (l : List JsValue) (n : Nat) :
    l.getD n .null = (l.get? n).getD .null := by
  rw [List.getD_eq_getElem?_getD, List.get?_eq_getElem?]

theorem buildRowGo_arr_lookup (vals : List JsValue) (cols : List JsValue) :
    ∀ (idx : Nat) (row row₂ : Row), (cols.map jsToString).Nodup →
      buildRowGo (.arr vals) cols idx row = .ok row₂ →
      ∀ i (hi : i < cols.length),
        objGet row₂ (jsToString (cols.get ⟨i, hi⟩)) =
          some (vals.getD (idx + i) .null) := by
  induction cols with
  | nil =>
    intro idx row row₂ _ _ i hi
    exact absurd hi (Nat.not_lt_zero i)
  | cons c rest ih =>
    intro idx row row₂ hnd h i hi
    simp only [buildRowGo, memberAccessIdx] at h
    simp only [List.map_cons, List.nodup_cons] at hnd
    match i, hi with
    | 0, hi =>
      have hpres := buildRowGo_objGet_of_not_mem (.arr vals) rest (idx + 1) _ row₂
        (jsToString c) hnd.1 h
      rw [show (c :: rest).get ⟨0, hi⟩ = c from rfl]
      rw [hpres, objGet_objSet_same, Nat.add_zero, getD_eq_get?_getD]
    | j + 1, hi =>
      have hlen : j < rest.length := by
        have hc : (c :: rest).length = rest.length + 1 := rfl
        omega
      have hrec := ih (idx + 1) _ row₂ hnd.2 h j hlen
      rw [show (c :: rest).get ⟨j + 1, hi⟩ = rest.get ⟨j, hlen⟩ from rfl, hrec]
      have hidx : idx + 1 + j = idx + (j + 1) := by omega
      rw [hidx]

theorem buildRow_ok (colsV d : JsValue) (row : Row) (h : buildRow colsV d = .ok row) :
    ∃ cols, colsV = .arr cols ∧ buildRowGo d cols 0 [] = .ok row := by
  cases colsV with
  | arr cols => exact ⟨cols, rfl, h⟩
  | null => cases h
  | bool b => cases h
  | num n => cases h
  | str s => cases h
  | obj fields => cases h

theorem mapRows_mem (colsV : JsValue) (ds : List JsValue) :
    ∀ (rows : List Row), mapRows colsV ds = .ok rows →
      ∀ row ∈ rows, ∃ d ∈ ds, buildRow colsV d = .ok row := by
  induction ds with
  | nil =>
    intro rows h row hrow
    simp only [mapRows] at h
    cases h
    cases hrow
  | cons d rest ih =>
    intro rows h row hrow
    simp only [mapRows] at h
    cases hb : buildRow colsV d with
    | error e => rw [hb] at h; cases h
    | ok r =>
      rw [hb] at h
      cases hm : mapRows colsV rest with
      | error e => rw [hm] at h; cases h
      | ok rs =>
        rw [hm] at h
        cases h
        rcases List.mem_cons.mp hrow with rfl | hrow₂
        · exact ⟨d, List.mem_cons_self d rest, hb⟩
        · obtain ⟨d₂, hd₂, hbd⟩ := ih rs hm row hrow₂
          exact ⟨d₂, List.mem_cons_of_mem d hd₂, hbd⟩

/-! ## Lemmas about the substring predicates -/

theorem charsStartWith_iff (t p : List Char) :
    charsStartWith t p = true ↔ ∃ r, t = p ++ r := by
  induction p generalizing t with
  | nil => simp [charsStartWith]
  | cons d ds ih =>
    cases t with
    | nil => simp [charsStartWith]
    | cons c cs =>
      simp only [charsStartWith, Bool.and_eq_true, decide_eq_true_eq, ih, List.cons_append]
      constructor
      · rintro ⟨hcd, r, rfl⟩
        subst hcd
        exact ⟨r, rfl⟩
      · rintro ⟨r, hr⟩
        injection hr with h₁ h₂
        exact ⟨h₁, r, h₂⟩

theorem charsContain_iff (t p : List Char) :
    charsContain t p = true ↔ ∃ l r, t = l ++ (p ++ r) := by
  induction t with
  | nil =>
    simp only [charsContain, List.isEmpty_iff]
    constructor
    · rintro rfl
      exact ⟨[], [], rfl⟩
    · rintro ⟨l, r, h⟩
      rcases List.append_eq_nil.mp h.symm with ⟨rfl, h₂⟩
      rcases List.append_eq_nil.mp h₂ with ⟨rfl, rfl⟩
      rfl
  | cons c cs ih =>
    simp only [charsContain, Bool.or_eq_true, charsStartWith_iff, ih]
    constructor
    · rintro (⟨r, hr⟩ | ⟨l, r, hr⟩)
      · exact ⟨[], r, by simpa using hr⟩
      · refine ⟨c :: l, r, ?_⟩
        rw [List.cons_append, ← hr]
    · rintro ⟨l, r, hr⟩
      cases l with
      | nil => exact Or.inl ⟨r, by simpa using hr⟩
      | cons x xs =>
        injection hr with h₁ h₂
        exact Or.inr ⟨xs, r, h₂⟩

theorem strIncludes_of_marker (s : String)
    (h : strIncludes s "Query executed successfully" = true) :
    strIncludes s "successfully" = true := by
  unfold strIncludes at h ⊢
  rw [charsContain_iff] at h ⊢
  obtain ⟨l, r, hr⟩ := h
  refine ⟨l ++ String.toList "Query executed ", r, ?_⟩
  rw [hr]
  have hsplit : String.toList "Query executed successfully" =
      String.toList "Query executed " ++ String.toList "successfully" := by decide
  rw [hsplit, List.append_assoc, List.append_assoc]

/-! ## Lemmas about value formatting and query assembly -/

theorem escapeSingleQuotes_append (a b : String) :
    escapeSingleQuotes (a ++ b) = escapeSingleQuotes a ++ escapeSingleQuotes b := by
  unfold escapeSingleQuotes
  rw [show (a ++ b).toList = a.toList ++ b.toList from String.data_append a b]
  rw [List.map_append, List.flatten_append]
  rfl

theorem escapeSingleQuotes_quote : escapeSingleQuotes SQ = BS ++ SQ := by decide

theorem escapeSingleQuotes_singleton_of_ne (c : Char) (h : c ≠ sqChar) :
    escapeSingleQuotes (String.singleton c) = String.singleton c := by
  unfold escapeSingleQuotes
  show String.mk (([c].map fun c => if c = sqChar then [bsChar, sqChar] else [c]).flatten)
    = String.singleton c
  simp [h]
  rfl

theorem joinComma_decomp (l : List String) (e : String) (h : e ∈ l) :
    ∃ pre post, joinComma l = pre ++ (e ++ post) := by
  induction l with
  | nil => cases h
  | cons x xs ih =>
    rcases List.mem_cons.mp h with rfl | h₂
    · cases xs with
      | nil => exact ⟨"", "", by simp [joinComma]⟩
      | cons y rest =>
        refine ⟨"", ", " ++ joinComma (y :: rest), ?_⟩
        show joinComma (e :: y :: rest) = "" ++ (e ++ (", " ++ joinComma (y :: rest)))
        rw [joinComma]
        rw [String.append_assoc]
        rfl
    · cases xs with
      | nil => cases h₂
      | cons y rest =>
        obtain ⟨pre, post, hp⟩ := ih h₂
        refine ⟨(x ++ ", ") ++ pre, post, ?_⟩
        rw [joinComma, hp, ← String.append_assoc]

theorem mem_objSet_same (row : Row) (k : String) (v : JsValue) :
    (k, v) ∈ objSet row k v := by
  induction row with
  | nil => exact List.mem_singleton.mpr rfl
  | cons hd tl ih =>
    obtain ⟨k₂, v₂⟩ := hd
    by_cases h : k₂ = k
    · simp [objSet, h]
    · simp only [objSet, if_neg h]
      exact List.mem_cons_of_mem _ ih

/-- Strict equality to `0` fails on every nonzero number. -/
theorem jsStrictZero_num_ne (n : Int) (h : n ≠ 0) :
    jsStrictZero (some (.num n)) = false := by
  unfold jsStrictZero
  split
  · rename_i heq
    injection heq with heq₂
    injection heq₂ with heq₃
    exact absurd heq₃ h
  · rfl

/-- Strict equality to `false` fails on everything except `some (.bool false)`. -/
theorem jsStrictFalse_eq_false_of_ne (v : Option JsValue)
    (h : v ≠ some (.bool false)) : jsStrictFalse v = false := by
  cases v with
  | none => rfl
  | some x =>
    cases x with
    | bool b =>
      cases b with
      | false => exact absurd rfl h
      | true => rfl
    | null => rfl
    | num n => rfl
    | str s => rfl
    | arr l => rfl
    | obj f => rfl

/-! ## Claim theorems -/

/-- C9: a raw response string that does not start with `Error` but contains
the substring `Query executed successfully` anywhere makes `parseCypherResult`
return the empty table without consulting the JSON parse outcome at all: the
result is the same for every parse outcome, even a structured
`{columns, data}` payload. -/
theorem marker_bypasses_json_decoding (s : String) (jsonParse : Except String JsValue)
    (hErr : strStartsWith s "Error" = false)
    (hMark : strIncludes s "Query executed successfully" = true) :
    parseCypherResult s jsonParse = .ok emptyResult := by
  simp [parseCypherResult, hErr, hMark]

/-- Witness for C9: a raw string that is itself valid JSON carrying a
structured `{columns, data}` payload containing the marker still decodes to
the empty table. -/
theorem marker_bypasses_json_decoding_witness :
    parseCypherResult "\x7b\"columns\":[\"Query executed successfully\"],\"data\":[[1]]\x7d"
      (.ok (.obj [("columns", .arr [.str "Query executed successfully"]),
                  ("data", .arr [.arr [.num 1]])]))
      = .ok emptyResult :=
  marker_bypasses_json_decoding _ _ rfl rfl

/-- C7: a plain informational success message — a raw string that is not JSON
(its parse outcome is a failure), does not start with `Error`, and carries the
success marker — decodes to the empty table `{columns: [], data: []}` and does
not raise. -/
theorem plain_success_message_decodes_empty (s msg : String)
    (hErr : strStartsWith s "Error" = false)
    (hMark : strIncludes s "Query executed successfully" = true) :
    parseCypherResult s (.error msg) = .ok emptyResult := by
  simp [parseCypherResult, hErr, hMark]

/-- Witness for C7: the literal plain success message of the native layer. -/
theorem plain_success_message_decodes_empty_witness :
    parseCypherResult "Query executed successfully. 2 nodes created."
      (.error "JSON Parse error: Unexpected identifier")
      = .ok emptyResult :=
  plain_success_message_decodes_empty _ _ rfl rfl

/-- C4 as stated is false: when JSON parsing fails on a raw string carrying no
success marker, the decoder re-raises the runtime parse error itself — every
caught value is an `Error` instance, so the branch that would build a message
containing the offending raw string is unreachable.  Here the raw string
`nonsense` is nowhere in the raised message. -/
theorem parse_failure_message_counterexample :
    parseCypherResult "nonsense" (.error "Unexpected token") =
      .error (.syntaxError "Unexpected token")
    ∧ strIncludes (JsError.message (.syntaxError "Unexpected token")) "nonsense" = false :=
  ⟨rfl, rfl⟩

/-- C4 (amended): on a failing JSON parse of a raw string not starting with
`Error`, the decoder returns the empty table when the raw string contains the
generic marker `successfully`, and otherwise re-raises the parse error
unchanged (rather than a constructed decoding error embedding the raw
string). -/
theorem parse_failure_handling (s m : String)
    (hErr : strStartsWith s "Error" = false) :
    (strIncludes s "successfully" = true →
      parseCypherResult s (.error m) = .ok emptyResult)
    ∧ (strIncludes s "successfully" = false →
      parseCypherResult s (.error m) = .error (.syntaxError m)) := by
  constructor
  · intro hs
    by_cases hq : strIncludes s "Query executed successfully" = true
    · simp [parseCypherResult, hErr, hq]
    · rw [Bool.not_eq_true] at hq
      simp [parseCypherResult, hErr, hq, hs]
  · intro hs
    have hq : strIncludes s "Query executed successfully" = false := by
      cases hq₂ : strIncludes s "Query executed successfully" with
      | false => rfl
      | true =>
        have hmono := strIncludes_of_marker s hq₂
        rw [hs] at hmono
        exact Bool.noConfusion hmono
    simp [parseCypherResult, hErr, hq, hs, JsError.instanceofError]

/-- Witness for C4 (amended): a concrete unparsable, marker-free response is
answered by the re-raised parse error. -/
theorem parse_failure_handling_witness :
    parseCypherResult "gibberish" (.error "boom") = .error (.syntaxError "boom") :=
  (parse_failure_handling "gibberish" "boom" rfl).2 rfl

/-- C8: `getStats` is a total function of the probe outcome — it never raises
— and returns `{nodes: 0, edges: 0}` on native failure, on a missing result,
on a failing parse, and on a response reporting `loaded: false`; on a response
reporting `loaded: true` it returns the reported counts, each defaulting to 0
when absent (nullish coalescing). -/
theorem getStats_total_spec :
    (∀ e, getStats (.nativeFailure e) = ⟨.num 0, .num 0⟩)
    ∧ getStats .noResult = ⟨.num 0, .num 0⟩
    ∧ (∀ raw m, getStats (.response raw (.error m)) = ⟨.num 0, .num 0⟩)
    ∧ (∀ raw fields, objGet fields "loaded" = some (.bool false) →
        getStats (.response raw (.ok (.obj fields))) = ⟨.num 0, .num 0⟩)
    ∧ (∀ raw fields, objGet fields "loaded" = some (.bool true) →
        getStats (.response raw (.ok (.obj fields))) =
          ⟨nullishOr (objGet fields "nodes") (.num 0),
           nullishOr (objGet fields "edges") (.num 0)⟩) := by
  refine ⟨fun e => rfl, rfl, fun raw m => rfl, ?_, ?_⟩
  · intro raw fields h
    simp [getStats, getStatsBody, memberAccess, h, jsTruthy]
  · intro raw fields h
    simp [getStats, getStatsBody, memberAccess, h, jsTruthy]

/-- Witness for C8: a loaded response reporting three nodes and no edge count
yields `{nodes: 3, edges: 0}`. -/
theorem getStats_total_spec_witness :
    getStats (.response "x" (.ok (.obj [("loaded", .bool true), ("nodes", .num 3)]))) =
      ⟨nullishOr (objGet [("loaded", .bool true), ("nodes", .num 3)] "nodes") (.num 0),
       nullishOr (objGet [("loaded", .bool true), ("nodes", .num 3)] "edges") (.num 0)⟩ :=
  getStats_total_spec.2.2.2.2 "x" [("loaded", .bool true), ("nodes", .num 3)] rfl

/-- C3 as stated is false: `loadGraph` invoked with the extension-loaded flag
false does not fail before the native layer — it prepares its native statement
unconditionally. -/
theorem loadGraph_unguarded_counterexample :
    loadGraphStart false = .native "SELECT gql_load_graph()"
    ∧ OpStart.failsBeforeNative (loadGraphStart false) = false :=
  ⟨rfl, rfl⟩

/-- C3 (amended): with the loaded flag false, the query, mutation and
algorithm operations (`cypher`, `cypherRaw`, `upsertNode`, `upsertEdge`,
`pagerank`, `louvain`, `shortestPath`, `dijkstra`) all fail immediately with
the not-loaded error before any native call, while the graph-cache
load/unload/reload operations and `getStats` perform no check and reach the
native layer unconditionally. -/
theorem not_loaded_guard_coverage (hasParams : Bool) :
    cypherStart false hasParams = .failed notLoadedError
    ∧ cypherRawStart false hasParams = .failed notLoadedError
    ∧ upsertNodeStart false = .failed notLoadedError
    ∧ upsertEdgeStart false = .failed notLoadedError
    ∧ pagerankStart false = .failed notLoadedError
    ∧ louvainStart false = .failed notLoadedError
    ∧ shortestPathStart false = .failed notLoadedError
    ∧ dijkstraStart false = .failed notLoadedError
    ∧ loadGraphStart false = .native "SELECT gql_load_graph()"
    ∧ unloadGraphStart false = .native "SELECT gql_unload_graph()"
    ∧ reloadGraphStart false = .native "SELECT gql_reload_graph()"
    ∧ getStatsStart false = .native "SELECT gql_graph_loaded() as result" :=
  ⟨rfl, rfl, rfl, rfl, rfl, rfl, rfl, rfl, rfl, rfl, rfl, rfl⟩

/-- C6: the result handling of `shortestPath`.  Given that the single decoded
record is present (an object bound to `column_0` of the first row), the method
returns null when `found` is explicitly `false`, or when the path list is
absent or empty; otherwise it returns the path list together with the optional
distance member.  When the query yields no record at all the result is also
null. -/
theorem shortestPath_null_and_found (results : List Row) (fields : Row)
    (hcol : (results.head?.bind fun row => objGet row "column_0") = some (.obj fields)) :
    (objGet fields "found" = some (.bool false) → shortestPathDecode results = .ok none)
    ∧ (objGet fields "path" = none → shortestPathDecode results = .ok none)
    ∧ (objGet fields "path" = some (.arr []) → shortestPathDecode results = .ok none)
    ∧ (∀ p ps, objGet fields "found" ≠ some (.bool false) →
        objGet fields "path" = some (.arr (p :: ps)) →
        shortestPathDecode results = .ok (some ⟨.arr (p :: ps), objGet fields "distance"⟩))
    ∧ (∀ rs : List Row, (rs.head?.bind fun row => objGet row "column_0") = none →
        shortestPathDecode rs = .ok none) := by
  refine ⟨?_, ?_, ?_, ?_, ?_⟩
  · intro hf
    simp [shortestPathDecode, hcol, jsTruthy, memberAccess, hf, jsStrictFalse]
  · intro hp
    cases hsf : jsStrictFalse (objGet fields "found") with
    | true => simp [shortestPathDecode, hcol, jsTruthy, memberAccess, hsf]
    | false => simp [shortestPathDecode, hcol, jsTruthy, memberAccess, hsf, hp]
  · intro hp
    cases hsf : jsStrictFalse (objGet fields "found") with
    | true => simp [shortestPathDecode, hcol, jsTruthy, memberAccess, hsf]
    | false => simp [shortestPathDecode, hcol, jsTruthy, memberAccess, hsf, hp, jsStrictZero]
  · intro p ps hf hp
    have hsf : jsStrictFalse (objGet fields "found") = false :=
      jsStrictFalse_eq_false_of_ne _ hf
    have hz : jsStrictZero (some (.num ((ps.length : Int) + 1))) = false :=
      jsStrictZero_num_ne _ (by omega)
    simp [shortestPathDecode, hcol, jsTruthy, memberAccess, hsf, hp, hz]
  · intro rs hrs
    simp [shortestPathDecode, hrs]

/-- Witness for C6: a found two-node path with distance 2 is returned as is. -/
theorem shortestPath_null_and_found_witness :
    shortestPathDecode
        [[("column_0", .obj [("path", .arr [.str "a", .str "b"]), ("distance", .num 2)])]]
      = .ok (some ⟨.arr [.str "a", .str "b"],
          objGet [("path", .arr [.str "a", .str "b"]), ("distance", .num 2)] "distance"⟩) :=
  ((shortestPath_null_and_found
      [[("column_0", .obj [("path", .arr [.str "a", .str "b"]), ("distance", .num 2)])]]
      [("path", .arr [.str "a", .str "b"]), ("distance", .num 2)]
      rfl).2.2.2.1
    (.str "a") [.str "b"] (fun h => Option.noConfusion h) rfl)

/-- C5: the value formatting shared by the upsert query builders
(`formatValue`, used by `setNodeQuery`, `setEdgeQuery` and `propPairs`):
null prints the null token; a string is single-quoted with each internal
single quote backslash-escaped and every other character — backslashes,
control characters, double quotes — passed through unaltered (the escaping is
a character homomorphism that rewrites only the quote character); a boolean
prints its lowercase literal; a number prints its decimal literal via the
default string conversion. -/
theorem upsert_value_formatting :
    formatValue .null = "null"
    ∧ (∀ b, formatValue (.bool b) = cond b "true" "false")
    ∧ (∀ n : Int, formatValue (.num n) = toString n)
    ∧ (∀ s, formatValue (.str s) = SQ ++ escapeSingleQuotes s ++ SQ)
    ∧ (∀ a b, escapeSingleQuotes (a ++ b) = escapeSingleQuotes a ++ escapeSingleQuotes b)
    ∧ escapeSingleQuotes SQ = BS ++ SQ
    ∧ (∀ c, c ≠ sqChar → escapeSingleQuotes (String.singleton c) = String.singleton c) :=
  ⟨rfl, fun _ => rfl, fun _ => rfl, fun _ => rfl,
   escapeSingleQuotes_append, escapeSingleQuotes_quote, escapeSingleQuotes_singleton_of_ne⟩

/-- Witness for C5: a non-quote character (a backslash) passes through the
escaping unaltered. -/
theorem upsert_value_formatting_witness :
    escapeSingleQuotes (String.singleton bsChar) = String.singleton bsChar :=
  upsert_value_formatting.2.2.2.2.2.2 bsChar (by decide)

/-- C2 as stated is false: the existence check issued by `upsertEdge` is a
count query matching any relationship between the two endpoints — the
relationship type (here `KNOWS`) occurs nowhere in the check query, though it
does occur in the creation statement issued afterwards. -/
theorem upsertEdge_check_reltype_counterexample :
    (upsertEdgeQueries "a" "b" [] (some "KNOWS") []).head? =
      some ("MATCH (a \x7bid: " ++ SQ ++ "a" ++ SQ ++ "\x7d)-[r]->(b \x7bid: " ++ SQ ++ "b" ++ SQ
        ++ "\x7d) RETURN count(r) as cnt")
    ∧ strIncludes ("MATCH (a \x7bid: " ++ SQ ++ "a" ++ SQ ++ "\x7d)-[r]->(b \x7bid: " ++ SQ ++ "b"
        ++ SQ ++ "\x7d) RETURN count(r) as cnt") "KNOWS" = false
    ∧ strIncludes ((upsertEdgeQueries "a" "b" [] (some "KNOWS") []).getD 1 "") "KNOWS" = true :=
  ⟨rfl, rfl, rfl⟩

/-- C2 (amended): the existence check of `upsertEdge` matches on both endpoint
id properties but not on the relationship type; the edge is created — in one
statement with all given properties — exactly when the check returned no rows
or a zero count: an empty check result always takes the creation branch, and
a check result whose first row carries a numeric, non-negative count takes the
creation branch exactly when that count is zero, issuing otherwise one
property-set statement per property key. -/
theorem upsertEdge_check_and_create (src tgt : String) (props : Row)
    (relType : Option String) (res : List Row) :
    (upsertEdgeQueries src tgt props relType res).head? = some (edgeCheckQuery src tgt)
    ∧ (res = [] →
        checkExists res = false
        ∧ upsertEdgeQueries src tgt props relType res =
            [edgeCheckQuery src tgt,
             createEdgeQuery src tgt (relationshipTypeOf relType) props])
    ∧ (∀ n : Int, (res.head?.bind fun row => objGet row "cnt") = some (.num n) → 0 ≤ n →
        (checkExists res = false ↔ n = 0)
        ∧ (n = 0 →
            upsertEdgeQueries src tgt props relType res =
              [edgeCheckQuery src tgt,
               createEdgeQuery src tgt (relationshipTypeOf relType) props])
        ∧ (n ≠ 0 →
            upsertEdgeQueries src tgt props relType res =
              edgeCheckQuery src tgt
                :: props.map (setEdgeQuery src tgt (relationshipTypeOf relType)))) := by
  refine ⟨?_, ?_, ?_⟩
  · unfold upsertEdgeQueries
    cases hce : checkExists res <;> simp [hce]
  · rintro rfl
    have hce : checkExists ([] : List Row) = false := by simp [checkExists]
    exact ⟨hce, by simp [upsertEdgeQueries, hce]⟩
  · intro n hcnt hn
    have hres : res ≠ [] := by
      rintro rfl
      simp at hcnt
    have hlen : 0 < res.length := List.length_pos.mpr hres
    have hck : checkExists res = decide (0 < n) := by
      simp [checkExists, hlen, hcnt, jsGtZero, toNumber]
    have hiff : checkExists res = false ↔ n = 0 := by
      rw [hck]
      constructor
      · intro hd
        rw [decide_eq_false_iff_not] at hd
        omega
      · rintro rfl
        rfl
    refine ⟨hiff, ?_, ?_⟩
    · intro hz
      have hce : checkExists res = false := hiff.mpr hz
      simp [upsertEdgeQueries, hce]
    · intro hz
      have hce : checkExists res = true := by
        cases hce₂ : checkExists res with
        | true => rfl
        | false => exact absurd (hiff.mp hce₂) hz
      simp [upsertEdgeQueries, hce]

/-- Witness for C2 (amended): an empty check result — the check returned no
rows — leads to the creation statement. -/
theorem upsertEdge_check_and_create_witness :
    checkExists ([] : List Row) = false
    ∧ upsertEdgeQueries "s" "t" [] none [] =
        [edgeCheckQuery "s" "t", createEdgeQuery "s" "t" (relationshipTypeOf none) []] :=
  (upsertEdge_check_and_create "s" "t" [] none []).2.1 rfl

/-- C10 as stated is false in its update half: when the node exists and the
caller-supplied properties map itself contains an `id` key, the update branch
does issue a statement re-setting the `id` property (to the caller's value). -/
theorem upsertNode_update_resets_id_counterexample :
    upsertNodeQueries "n1" [("id", .str "other")] none [[("cnt", .num 1)]] =
      [nodeCheckQuery "n1",
       "MATCH (n \x7bid: " ++ SQ ++ "n1" ++ SQ ++ "\x7d) SET n.id = " ++ SQ ++ "other" ++ SQ]
    ∧ strIncludes ("MATCH (n \x7bid: " ++ SQ ++ "n1" ++ SQ ++ "\x7d) SET n.id = " ++ SQ
        ++ "other" ++ SQ) "SET n.id" = true :=
  ⟨rfl, rfl⟩

/-- C10 (amended): in the creation branch the property list is
`{...properties, id: nodeId}`, whose `id` key is always bound to the `nodeId`
argument — overriding any caller-supplied `id` — and the creation query text
contains that binding; in the update branch the `id: nodeId` binding is never
re-applied: the statements are exactly one property-set per caller-supplied
key (so `id` is re-set there only when the caller supplied it). -/
theorem upsertNode_id_binding (nodeId : String) (props : Row) (label : Option String)
    (res : List Row) :
    (checkExists res = false →
      upsertNodeQueries nodeId props label res =
        [nodeCheckQuery nodeId,
         createNodeQuery (labelOf label) (objSet props "id" (.str nodeId))]
      ∧ objGet (objSet props "id" (.str nodeId)) "id" = some (.str nodeId)
      ∧ ∃ pre post, createNodeQuery (labelOf label) (objSet props "id" (.str nodeId)) =
          pre ++ (("id: " ++ (SQ ++ escapeSingleQuotes nodeId ++ SQ)) ++ post))
    ∧ (checkExists res = true →
      upsertNodeQueries nodeId props label res =
        nodeCheckQuery nodeId :: props.map (setNodeQuery nodeId)) := by
  constructor
  · intro hce
    refine ⟨by simp [upsertNodeQueries, hce], objGet_objSet_same props "id" (.str nodeId), ?_⟩
    obtain ⟨pre₀, post₀, hp⟩ :=
      joinComma_decomp
        ((objSet props "id" (.str nodeId)).map fun kv => kv.1 ++ ": " ++ formatValue kv.2)
        ("id" ++ ": " ++ formatValue (.str nodeId))
        (List.mem_map_of_mem _ (mem_objSet_same props "id" (.str nodeId)))
    refine ⟨"CREATE (n:" ++ labelOf label ++ " \x7b" ++ pre₀, post₀ ++ "\x7d)", ?_⟩
    unfold createNodeQuery propPairs
    rw [hp]
    simp only [formatValue, String.append_assoc]
    rfl

  · intro hce
    simp [upsertNodeQueries, hce]

/-- Witness for C10 (amended): with no prior node, `upsertNode` with a lone
`name` property creates a node whose property list binds `id` to the node id. -/
theorem upsertNode_id_binding_witness :
    (upsertNodeQueries "n1" [("name", .str "x")] none [] =
      [nodeCheckQuery "n1",
       createNodeQuery (labelOf none) (objSet [("name", .str "x")] "id" (.str "n1"))]
      ∧ objGet (objSet [("name", JsValue.str "x")] "id" (.str "n1")) "id" = some (.str "n1")
      ∧ ∃ pre post, createNodeQuery (labelOf none) (objSet [("name", .str "x")] "id" (.str "n1")) =
          pre ++ (("id: " ++ (SQ ++ escapeSingleQuotes "n1" ++ SQ)) ++ post)) :=
  (upsertNode_id_binding "n1" [("name", .str "x")] none []).1 rfl

/-- C1 as stated is false: a canonical `{columns, data}` payload is returned
unchanged by `parseCypherResult`, and when its column list repeats a name the
row object produced by `resultToRows` has fewer entries than there are
columns — both bindings of the duplicate column collapse into one key (the
last position winning), so the row has one entry against two columns. -/
theorem decoded_row_width_counterexample :
    parseCypherResult "\x7b\"columns\":[\"a\",\"a\"],\"data\":[[1,2]]\x7d"
      (.ok (.obj [("columns", .arr [.str "a", .str "a"]),
                  ("data", .arr [.arr [.num 1, .num 2]])]))
      = .ok ⟨.arr [.str "a", .str "a"], .arr [.arr [.num 1, .num 2]]⟩
    ∧ resultToRows ⟨.arr [.str "a", .str "a"], .arr [.arr [.num 1, .num 2]]⟩
      = .ok [[("a", .num 2)]]
    ∧ ([("a", JsValue.num 2)] : Row).length ≠
        ([JsValue.str "a", JsValue.str "a"] : List JsValue).length :=
  ⟨rfl, rfl, by decide⟩

/-- C1 (amended): every row object produced by `resultToRows` from a decoded
table binds every column name — its key set is exactly the (string-coerced)
column names, without duplicates — and therefore has exactly as many entries
as there are columns whenever the column names are pairwise distinct (as they
are for every table built by the decoder's array-of-objects branch, whose
columns are the keys of one JavaScript object); in that case each column is
bound to the row tuple's value at the column's position, with null substituted
for any position missing from a short row tuple. -/
theorem decoded_rows_bind_every_column (t : CypherResult) (rows : List Row) (row : Row)
    (hres : resultToRows t = .ok rows) (hrow : row ∈ rows) :
    ∃ cols datas rowData,
      t.columns = .arr cols ∧ t.data = .arr datas ∧ rowData ∈ datas
      ∧ buildRow t.columns rowData = .ok row
      ∧ (∀ c ∈ cols, (objGet row (jsToString c)).isSome = true)
      ∧ (rowKeys row).Nodup
      ∧ (∀ q, q ∈ rowKeys row ↔ q ∈ cols.map jsToString)
      ∧ ((cols.map jsToString).Nodup → row.length = cols.length)
      ∧ ((cols.map jsToString).Nodup → ∀ vals, rowData = .arr vals →
          ∀ i (hi : i < cols.length),
            objGet row (jsToString (cols.get ⟨i, hi⟩)) =
              some (vals.getD i .null)) := by
  obtain ⟨colsV, dataV⟩ := t
  cases dataV with
  | arr datas =>
    have hmap : mapRows colsV datas = .ok rows := hres
    obtain ⟨d, hd, hb⟩ := mapRows_mem colsV datas rows hmap row hrow
    obtain ⟨cols, rfl, hgo⟩ := buildRow_ok colsV d row hb
    have hkeys : ∀ q, q ∈ rowKeys row ↔ q ∈ cols.map jsToString := by
      intro q
      rw [buildRowGo_mem_rowKeys d cols 0 [] row hgo q]
      simp [rowKeys]
    have hnd : (rowKeys row).Nodup :=
      buildRowGo_nodup d cols 0 [] row (by simp [rowKeys]) hgo
    refine ⟨cols, datas, d, rfl, rfl, hd, hb, ?_, hnd, hkeys, ?_, ?_⟩
    · intro c hc
      rw [objGet_isSome_iff]
      exact (hkeys (jsToString c)).mpr (List.mem_map_of_mem jsToString hc)
    · intro hndc
      have hperm : (rowKeys row).Perm (cols.map jsToString) :=
        (List.perm_ext_iff_of_nodup hnd hndc).mpr hkeys
      have hlen : (rowKeys row).length = (cols.map jsToString).length :=
        hperm.length_eq
      simpa [rowKeys] using hlen
    · intro hndc vals hdv i hi
      subst hdv
      have := buildRowGo_arr_lookup vals cols 0 [] row hndc hgo i hi
      simpa using this
  | null => cases hres
  | bool b => cases hres
  | num n => cases hres
  | str s => cases hres
  | obj fields => cases hres

/-- Witness for C1 (amended): the canonical two-column table with a short row
tuple yields a row binding both columns, the missing position as null. -/
theorem decoded_rows_bind_every_column_witness :
    ∃ cols datas rowData,
      (CypherResult.mk (.arr [.str "a", .str "b"]) (.arr [.arr [.num 1]])).columns = .arr cols
      ∧ (CypherResult.mk (.arr [.str "a", .str "b"]) (.arr [.arr [.num 1]])).data = .arr datas
      ∧ rowData ∈ datas
      ∧ buildRow (CypherResult.mk (.arr [.str "a", .str "b"]) (.arr [.arr [.num 1]])).columns
          rowData = .ok [("a", .num 1), ("b", .null)]
      ∧ (∀ c ∈ cols, (objGet [("a", JsValue.num 1), ("b", JsValue.null)] (jsToString c)).isSome = true)
      ∧ (rowKeys [("a", JsValue.num 1), ("b", JsValue.null)]).Nodup
      ∧ (∀ q, q ∈ rowKeys [("a", JsValue.num 1), ("b", JsValue.null)] ↔ q ∈ cols.map jsToString)
      ∧ ((cols.map jsToString).Nodup →
          ([("a", JsValue.num 1), ("b", JsValue.null)] : Row).length = cols.length)
      ∧ ((cols.map jsToString).Nodup → ∀ vals, rowData = .arr vals →
          ∀ i (hi : i < cols.length),
            objGet [("a", JsValue.num 1), ("b", JsValue.null)] (jsToString (cols.get ⟨i, hi⟩)) =
              some (vals.getD i .null)) :=
  decoded_rows_bind_every_column
    (CypherResult.mk (.arr [.str "a", .str "b"]) (.arr [.arr [.num 1]]))
    [[("a", .num 1), ("b", .null)]]
    [("a", .num 1), ("b", .null)]
    rfl (List.mem_singleton.mpr rfl)

end GraphQLite
